import Mathlib

/-!
Verification development for the `harvest_plet` repository.

The Python sources under `src/harvest_plet/` are shallowly embedded below.
External collaborators (the HTTP layer `requests`, the WKT parser
`shapely.wkt.loads`, the filesystem, and Unicode NFKD normalization) are
modelled as explicit function parameters; everything the repository itself
computes is translated directly from the source.
-/

set_option maxRecDepth 100000

deriving instance DecidableEq for Except

namespace HarvestPlet

/-- Python exception values that the embedded code can raise.  Each carries
the message string built by the source. -/
inductive PyError where
  | valueError : String → PyError
  | runtimeError : String → PyError
  | osError : String → PyError
  | persistError : String → PyError
deriving DecidableEq, Repr

/-- Observable behaviour of one call to the retrying fetch
(`harvest_dataset` in `src/harvest_plet/harvest_dataset.py`, and the method
`PLETHarvester.harvest_dataset` in `src/harvest_plet/plet.py`):
the returned value or raised exception, the number of network attempts
performed, and the list of back-off sleep durations (seconds, in order).
`result = .ok none` models the Python function falling off the end of the
retry loop and implicitly returning `None` (possible only for `retries = 0`). -/
structure FetchTrace where
  result : Except PyError (Option String)
  attempts : Nat
  sleeps : List ℚ
deriving DecidableEq, Repr

/-- Embedding of the retry loop of `harvest_dataset`
(src/harvest_plet/harvest_dataset.py lines 64-78):

  attempt = 0
  while attempt < retries:
      try: response = requests.get(...); return response.text
      except requests.RequestException as e:
          attempt += 1
          if attempt >= retries: raise RuntimeError(...)
          time.sleep(backoff_factor * (2 ** (attempt - 1)))

`net n` is the outcome of the n-th network attempt (n counted from 1):
`.ok text` for a 2xx response body, `.error e` for a
`requests.RequestException` with message `e`.  `fuel` bounds the number of
remaining loop iterations; the top-level call passes `fuel = retries`, which
is exact because each iteration either returns, raises, or increments
`attempt` towards `retries`. -/
def harvest_go (net : Nat → Except String String) (retries : Nat) (backoff_factor : ℚ) :
    Nat → Nat → FetchTrace
  | _, 0 => ⟨.ok none, 0, []⟩
  | attempt, fuel + 1 =>
    if attempt < retries then
      match net (attempt + 1) with
      | .ok text => ⟨.ok (some text), 1, []⟩
      | .error e =>
        if attempt + 1 ≥ retries then
          ⟨.error (.runtimeError ("Request failed after " ++ toString retries ++
            " attempts: " ++ e)), 1, []⟩
        else
          let rest := harvest_go net retries backoff_factor (attempt + 1) fuel
          ⟨rest.result, rest.attempts + 1, backoff_factor * 2 ^ attempt :: rest.sleeps⟩
    else ⟨.ok none, 0, []⟩

/-- Embedding of `harvest_dataset` (src/harvest_plet/harvest_dataset.py).
Dates are modelled by their ordinals (only `≤` is used by the source).
`parse` models `shapely.wkt.loads` followed by the `.is_valid` check:
`.error e` when `loads` raises with message `e`, `.ok b` when it returns a
geometry with `is_valid = b`.  The source raises its own
ValueError("Provided WKT geometry is invalid") inside the same `try`, so it
is re-wrapped by the `except` clause into "Invalid WKT format: ...".
The HTTP request parameters (dataset name, timeout) only flow into the
abstracted network call `net` and are therefore not separate arguments of
the embedding. -/
def harvest_dataset (parse : String → Except String Bool)
    (net : Nat → Except String String)
    (start_date end_date : Int) (wkt : String)
    (retries : Nat) (backoff_factor : ℚ) : FetchTrace :=
  if end_date ≤ start_date then
    ⟨.error (.valueError "end_date must be after start_date"), 0, []⟩
  else
    match parse wkt with
    | .error e => ⟨.error (.valueError ("Invalid WKT format: " ++ e)), 0, []⟩
    | .ok false =>
      ⟨.error (.valueError "Invalid WKT format: Provided WKT geometry is invalid"), 0, []⟩
    | .ok true => harvest_go net retries backoff_factor 0 retries

/-- Embedding of the retry loop of `PLETHarvester.harvest_dataset`
(src/harvest_plet/plet.py lines 115-130):

  for attempt in range(1, retries + 1):
      try: response = self.session.get(...); return response.text
      except requests.RequestException as e:
          if attempt == retries: raise RuntimeError(...)
          time.sleep(backoff_factor * (2 ** (attempt - 1)))

`fuel` is the number of remaining iterations of the `range`; the top-level
call passes `fuel = retries` and `attempt = 1`. -/
def plet_go (net : Nat → Except String String) (retries : Nat) (backoff_factor : ℚ) :
    Nat → Nat → FetchTrace
  | _, 0 => ⟨.ok none, 0, []⟩
  | attempt, fuel + 1 =>
    match net attempt with
    | .ok text => ⟨.ok (some text), 1, []⟩
    | .error e =>
      if attempt = retries then
        ⟨.error (.runtimeError ("Request failed after " ++ toString retries ++
          " attempts: " ++ e)), 1, []⟩
      else
        let rest := plet_go net retries backoff_factor (attempt + 1) fuel
        ⟨rest.result, rest.attempts + 1, backoff_factor * 2 ^ (attempt - 1) :: rest.sleeps⟩

/-- Embedding of `PLETHarvester.harvest_dataset` (src/harvest_plet/plet.py
lines 62-130): same validation as the module-level `harvest_dataset`,
followed by the `for`-loop retry variant. -/
def plet_harvest_dataset (parse : String → Except String Bool)
    (net : Nat → Except String String)
    (start_date end_date : Int) (wkt : String)
    (retries : Nat) (backoff_factor : ℚ) : FetchTrace :=
  if end_date ≤ start_date then
    ⟨.error (.valueError "end_date must be after start_date"), 0, []⟩
  else
    match parse wkt with
    | .error e => ⟨.error (.valueError ("Invalid WKT format: " ++ e)), 0, []⟩
    | .ok false =>
      ⟨.error (.valueError "Invalid WKT format: Provided WKT geometry is invalid"), 0, []⟩
    | .ok true => plet_go net retries backoff_factor 1 retries

example :
    harvest_dataset (fun _ => .ok true) (fun _ => .error "boom") 0 1 "P" 3 60 =
      ⟨.error (.runtimeError "Request failed after 3 attempts: boom"), 3,
        [(60 : ℚ) * 2 ^ 0, (60 : ℚ) * 2 ^ 1]⟩ := rfl

example :
    plet_harvest_dataset (fun _ => .ok true) (fun _ => .error "boom") 0 1 "P" 3 60 =
      ⟨.error (.runtimeError "Request failed after 3 attempts: boom"), 3,
        [(60 : ℚ) * 2 ^ 0, (60 : ℚ) * 2 ^ 1]⟩ := rfl

example :
    harvest_dataset (fun _ => .ok true)
      (fun n => if n ≤ 2 then .error "e" else .ok "data") 0 1 "P" 5 7 =
      ⟨.ok (some "data"), 3, [(7 : ℚ) * 2 ^ 0, (7 : ℚ) * 2 ^ 1]⟩ := rfl

/-! Lemmas about the two retry loops. -/

theorem harvest_go_attempts_le (net : Nat → Except String String) (r : Nat) (b : ℚ) :
    ∀ fuel a, (harvest_go net r b a fuel).attempts ≤ fuel := by
  intro fuel
  induction fuel with
  | zero => intro a; simp [harvest_go]
  | succ n ih =>
    intro a
    by_cases hlt : a < r
    · cases h : net (a + 1) with
      | ok t => simp [harvest_go, hlt, h]
      | error e =>
        by_cases hend : a + 1 ≥ r
        · simp [harvest_go, hlt, h, hend]
        · simp only [harvest_go, hlt, if_true, h]
          rw [if_neg hend]
          simpa using Nat.succ_le_succ (ih (a + 1))
    · simp [harvest_go, hlt]

theorem plet_go_attempts_le (net : Nat → Except String String) (r : Nat) (b : ℚ) :
    ∀ fuel a, (plet_go net r b a fuel).attempts ≤ fuel := by
  intro fuel
  induction fuel with
  | zero => intro a; simp [plet_go]
  | succ n ih =>
    intro a
    cases h : net a with
    | ok t => simp [plet_go, h]
    | error e =>
      by_cases hend : a = r
      · subst hend
        simp [plet_go, h]
      · simp only [plet_go, h]
        rw [if_neg hend]
        simpa using Nat.succ_le_succ (ih (a + 1))

theorem harvest_dataset_attempts_le (parse : String → Except String Bool)
    (net : Nat → Except String String) (sd ed : Int) (wkt : String) (r : Nat) (b : ℚ) :
    (harvest_dataset parse net sd ed wkt r b).attempts ≤ r := by
  unfold harvest_dataset
  split
  · exact Nat.zero_le r
  · split
    · exact Nat.zero_le r
    · exact Nat.zero_le r
    · exact harvest_go_attempts_le net r b r 0

theorem plet_harvest_dataset_attempts_le (parse : String → Except String Bool)
    (net : Nat → Except String String) (sd ed : Int) (wkt : String) (r : Nat) (b : ℚ) :
    (plet_harvest_dataset parse net sd ed wkt r b).attempts ≤ r := by
  unfold plet_harvest_dataset
  split
  · exact Nat.zero_le r
  · split
    · exact Nat.zero_le r
    · exact Nat.zero_le r
    · exact plet_go_attempts_le net r b r 1

theorem harvest_go_exhaust (net : Nat → Except String String) (errs : Nat → String)
    (r : Nat) (b : ℚ) (hfail : ∀ n, net n = .error (errs n)) :
    ∀ fuel a, a + fuel = r → a < r →
      (harvest_go net r b a fuel).attempts = fuel ∧
      (harvest_go net r b a fuel).result =
        .error (.runtimeError ("Request failed after " ++ toString r ++
          " attempts: " ++ errs r)) := by
  intro fuel
  induction fuel with
  | zero => intro a hsum hlt; omega
  | succ n ih =>
    intro a hsum hlt
    simp only [harvest_go, if_pos hlt, hfail (a + 1)]
    by_cases hend : a + 1 ≥ r
    · have hn : n = 0 := by omega
      have ha : a + 1 = r := by omega
      subst hn
      simp [if_pos hend, ha]
    · have hlt2 : a + 1 < r := by omega
      have := ih (a + 1) (by omega) hlt2
      simp only [if_neg hend]
      exact ⟨by simpa using this.1, this.2⟩

theorem plet_go_exhaust (net : Nat → Except String String) (errs : Nat → String)
    (r : Nat) (b : ℚ) (hfail : ∀ n, net n = .error (errs n)) :
    ∀ fuel a, a + fuel = r + 1 → 1 ≤ a → a ≤ r →
      (plet_go net r b a fuel).attempts = fuel ∧
      (plet_go net r b a fuel).result =
        .error (.runtimeError ("Request failed after " ++ toString r ++
          " attempts: " ++ errs r)) := by
  intro fuel
  induction fuel with
  | zero => intro a hsum h1 hr; omega
  | succ n ih =>
    intro a hsum h1 hr
    simp only [plet_go, hfail a]
    by_cases hend : a = r
    · have hn : n = 0 := by omega
      subst hn
      simp [if_pos hend, hend]
    · have := ih (a + 1) (by omega) (by omega) (by omega)
      simp only [if_neg hend]
      exact ⟨by simpa using this.1, this.2⟩

theorem harvest_go_succeed (net : Nat → Except String String) (errs : Nat → String)
    (payload : String) (r k : Nat) (b : ℚ)
    (hf : ∀ n, 1 ≤ n → n ≤ k → net n = .error (errs n))
    (hs : net (k + 1) = .ok payload) (hk : k < r) :
    ∀ fuel a, a + fuel = r → a ≤ k →
      harvest_go net r b a fuel =
        ⟨.ok (some payload), k + 1 - a, (List.range (k - a)).map (fun i => b * 2 ^ (a + i))⟩ := by
  intro fuel
  induction fuel with
  | zero => intro a hsum hak; omega
  | succ n ih =>
    intro a hsum hak
    have hlt : a < r := by omega
    by_cases hak2 : a = k
    · subst hak2
      simp [harvest_go, if_pos hlt, hs]
    · have halt : a < k := by omega
      have hne : net (a + 1) = .error (errs (a + 1)) := hf (a + 1) (by omega) (by omega)
      have hend : ¬ (a + 1 ≥ r) := by omega
      simp only [harvest_go, if_pos hlt, hne]
      rw [if_neg hend]
      simp only [ih (a + 1) (by omega) (by omega)]
      refine congrArg₂ (FetchTrace.mk (.ok (some payload))) (by omega) ?_
      have hka : k - a = (k - (a + 1)) + 1 := by omega
      rw [hka, List.range_succ_eq_map, List.map_cons, List.map_map]
      refine congrArg₂ List.cons (by rw [Nat.add_zero]) (List.map_congr_left ?_)
      intro i _
      show b * 2 ^ (a + 1 + i) = b * 2 ^ (a + (i + 1))
      have : a + 1 + i = a + (i + 1) := by omega
      rw [this]

theorem plet_go_succeed (net : Nat → Except String String) (errs : Nat → String)
    (payload : String) (r k : Nat) (b : ℚ)
    (hf : ∀ n, 1 ≤ n → n ≤ k → net n = .error (errs n))
    (hs : net (k + 1) = .ok payload) (hk : k < r) :
    ∀ fuel a, a + fuel = r + 1 → 1 ≤ a → a ≤ k + 1 →
      plet_go net r b a fuel =
        ⟨.ok (some payload), k + 2 - a,
          (List.range (k + 1 - a)).map (fun i => b * 2 ^ (a - 1 + i))⟩ := by
  intro fuel
  induction fuel with
  | zero => intro a hsum h1 hak; omega
  | succ n ih =>
    intro a hsum h1 hak
    by_cases hak2 : a = k + 1
    · subst hak2
      simp [plet_go, hs]
    · have halt : a ≤ k := by omega
      have hne : net a = .error (errs a) := hf a h1 halt
      have hend : a ≠ r := by omega
      simp only [plet_go, hne]
      rw [if_neg hend]
      simp only [ih (a + 1) (by omega) (by omega) (by omega)]
      refine congrArg₂ (FetchTrace.mk (.ok (some payload))) (by omega) ?_
      have hka : k + 1 - a = (k + 1 - (a + 1)) + 1 := by omega
      rw [hka, List.range_succ_eq_map, List.map_cons, List.map_map]
      refine congrArg₂ List.cons (by rw [Nat.add_zero]) (List.map_congr_left ?_)
      intro i _
      show b * 2 ^ (a + 1 - 1 + i) = b * 2 ^ (a - 1 + (i + 1))
      have : a + 1 - 1 + i = a - 1 + (i + 1) := by omega
      rw [this]

theorem harvest_dataset_valid (parse : String → Except String Bool)
    (net : Nat → Except String String) (sd ed : Int) (wkt : String) (r : Nat) (b : ℚ)
    (hd : sd < ed) (hp : parse wkt = .ok true) :
    harvest_dataset parse net sd ed wkt r b = harvest_go net r b 0 r := by
  unfold harvest_dataset
  rw [if_neg (by omega), hp]

theorem plet_harvest_dataset_valid (parse : String → Except String Bool)
    (net : Nat → Except String String) (sd ed : Int) (wkt : String) (r : Nat) (b : ℚ)
    (hd : sd < ed) (hp : parse wkt = .ok true) :
    plet_harvest_dataset parse net sd ed wkt r b = plet_go net r b 1 r := by
  unfold plet_harvest_dataset
  rw [if_neg (by omega), hp]

/-- C2: for every call to the fetch operation (`harvest_dataset`, both the
module-level function and the `PLETHarvester` method) with `retries ≥ 1` and
a valid query in which every network attempt fails with a transport error,
exactly `retries` network attempts are performed and the call raises a
RuntimeError carrying the last underlying error; moreover, for every call
whatsoever, at most `retries` network attempts are made, so attempt number
`retries + 1` never happens. -/
theorem C2_retry_exhaustion (parse : String → Except String Bool)
    (net : Nat → Except String String) (errs : Nat → String)
    (sd ed : Int) (wkt : String) (r : Nat) (b : ℚ)
    (hr : 1 ≤ r) (hd : sd < ed) (hp : parse wkt = .ok true)
    (hfail : ∀ n, net n = .error (errs n)) :
    ((harvest_dataset parse net sd ed wkt r b).attempts = r ∧
     (harvest_dataset parse net sd ed wkt r b).result =
       .error (.runtimeError ("Request failed after " ++ toString r ++
         " attempts: " ++ errs r)) ∧
     (plet_harvest_dataset parse net sd ed wkt r b).attempts = r ∧
     (plet_harvest_dataset parse net sd ed wkt r b).result =
       .error (.runtimeError ("Request failed after " ++ toString r ++
         " attempts: " ++ errs r))) ∧
    (∀ parse2 net2 sd2 ed2 wkt2 r2 b2,
      (harvest_dataset parse2 net2 sd2 ed2 wkt2 r2 b2).attempts ≤ r2 ∧
      (plet_harvest_dataset parse2 net2 sd2 ed2 wkt2 r2 b2).attempts ≤ r2) := by
  have h1 := harvest_go_exhaust net errs r b hfail r 0 (by omega) (by omega)
  have h2 := plet_go_exhaust net errs r b hfail r 1 (by omega) (by omega) (by omega)
  rw [harvest_dataset_valid parse net sd ed wkt r b hd hp,
    plet_harvest_dataset_valid parse net sd ed wkt r b hd hp]
  exact ⟨⟨h1.1, h1.2, h2.1, h2.2⟩,
    fun parse2 net2 sd2 ed2 wkt2 r2 b2 =>
      ⟨harvest_dataset_attempts_le parse2 net2 sd2 ed2 wkt2 r2 b2,
       plet_harvest_dataset_attempts_le parse2 net2 sd2 ed2 wkt2 r2 b2⟩⟩

def wParse : String → Except String Bool := fun _ => .ok true

def wNetFail : Nat → Except String String := fun _ => .error "boom"

theorem C2_retry_exhaustion_witness :
    ((1 : Nat) ≤ 3 ∧ (0 : Int) < 1 ∧ wParse "P" = .ok true ∧
      (∀ n, wNetFail n = .error ((fun _ => "boom") n))) ∧
    ((harvest_dataset wParse wNetFail 0 1 "P" 3 60).attempts = 3 ∧
     (harvest_dataset wParse wNetFail 0 1 "P" 3 60).result =
       .error (.runtimeError ("Request failed after " ++ toString 3 ++
         " attempts: " ++ "boom")) ∧
     (plet_harvest_dataset wParse wNetFail 0 1 "P" 3 60).attempts = 3 ∧
     (plet_harvest_dataset wParse wNetFail 0 1 "P" 3 60).result =
       .error (.runtimeError ("Request failed after " ++ toString 3 ++
         " attempts: " ++ "boom"))) ∧
    (∀ parse2 net2 sd2 ed2 wkt2 r2 b2,
      (harvest_dataset parse2 net2 sd2 ed2 wkt2 r2 b2).attempts ≤ r2 ∧
      (plet_harvest_dataset parse2 net2 sd2 ed2 wkt2 r2 b2).attempts ≤ r2) :=
  ⟨⟨by decide, by decide, rfl, fun _ => rfl⟩,
    C2_retry_exhaustion wParse wNetFail (fun _ => "boom") 0 1 "P" 3 60
      (by decide) (by decide) rfl (fun _ => rfl)⟩

/-- C3: for every call to the fetch operation (both variants) with a valid
query in which the network attempt fails exactly `k < retries` times and
then succeeds, the client performs exactly `k + 1` network attempts, sleeps
exactly `k` times with the i-th sleep lasting `backoff_factor * 2 ^ (i - 1)`
seconds, and returns the payload of the successful attempt. -/
theorem C3_retry_backoff (parse : String → Except String Bool)
    (net : Nat → Except String String) (errs : Nat → String) (payload : String)
    (sd ed : Int) (wkt : String) (r k : Nat) (b : ℚ)
    (hk : k < r) (hd : sd < ed) (hp : parse wkt = .ok true)
    (hf : ∀ n, 1 ≤ n → n ≤ k → net n = .error (errs n))
    (hs : net (k + 1) = .ok payload) :
    harvest_dataset parse net sd ed wkt r b =
      ⟨.ok (some payload), k + 1, (List.range k).map (fun i => b * 2 ^ i)⟩ ∧
    plet_harvest_dataset parse net sd ed wkt r b =
      ⟨.ok (some payload), k + 1, (List.range k).map (fun i => b * 2 ^ i)⟩ := by
  constructor
  · rw [harvest_dataset_valid parse net sd ed wkt r b hd hp]
    have h := harvest_go_succeed net errs payload r k b hf hs hk r 0 (by omega) (by omega)
    simpa using h
  · rw [plet_harvest_dataset_valid parse net sd ed wkt r b hd hp]
    have h := plet_go_succeed net errs payload r k b hf hs hk r 1 (by omega) (by omega)
      (by omega)
    simpa using h

def wNetOnce : Nat → Except String String :=
  fun n => if n = 1 then .error "timeout" else .ok "csvdata"

theorem C3_retry_backoff_witness :
    ((1 : Nat) < 3 ∧ (0 : Int) < 1 ∧ wParse "P" = .ok true ∧
      (∀ n, 1 ≤ n → n ≤ 1 → wNetOnce n = .error ((fun _ => "timeout") n)) ∧
      wNetOnce 2 = .ok "csvdata") ∧
    harvest_dataset wParse wNetOnce 0 1 "P" 3 60 =
      ⟨.ok (some "csvdata"), 2, (List.range 1).map (fun i => (60 : ℚ) * 2 ^ i)⟩ ∧
    plet_harvest_dataset wParse wNetOnce 0 1 "P" 3 60 =
      ⟨.ok (some "csvdata"), 2, (List.range 1).map (fun i => (60 : ℚ) * 2 ^ i)⟩ :=
  ⟨⟨by decide, by decide, rfl,
      fun n h1 h2 => by
        have hn : n = 1 := by omega
        subst hn; rfl,
      rfl⟩,
    C3_retry_backoff wParse wNetOnce (fun _ => "timeout") "csvdata" 0 1 "P" 3 1 60
      (by decide) (by decide) rfl
      (fun n h1 h2 => by
        have hn : n = 1 := by omega
        subst hn; rfl)
      rfl⟩

/-- C4: for every call to the fetch operation (both variants) with
`end_date ≤ start_date`, the call raises ValueError regardless of the
geometry argument, with zero network attempts and zero sleeps; likewise a
call whose WKT string fails to parse, or parses to an invalid geometry,
raises ValueError before any network attempt and is never retried. -/
theorem C4_invalid_query (parse : String → Except String Bool)
    (net : Nat → Except String String) (sd ed : Int) (wkt : String) (r : Nat) (b : ℚ) :
    (ed ≤ sd →
      harvest_dataset parse net sd ed wkt r b =
        ⟨.error (.valueError "end_date must be after start_date"), 0, []⟩ ∧
      plet_harvest_dataset parse net sd ed wkt r b =
        ⟨.error (.valueError "end_date must be after start_date"), 0, []⟩) ∧
    (∀ e, sd < ed → parse wkt = .error e →
      harvest_dataset parse net sd ed wkt r b =
        ⟨.error (.valueError ("Invalid WKT format: " ++ e)), 0, []⟩ ∧
      plet_harvest_dataset parse net sd ed wkt r b =
        ⟨.error (.valueError ("Invalid WKT format: " ++ e)), 0, []⟩) ∧
    (sd < ed → parse wkt = .ok false →
      harvest_dataset parse net sd ed wkt r b =
        ⟨.error (.valueError "Invalid WKT format: Provided WKT geometry is invalid"), 0, []⟩ ∧
      plet_harvest_dataset parse net sd ed wkt r b =
        ⟨.error (.valueError "Invalid WKT format: Provided WKT geometry is invalid"), 0, []⟩) := by
  refine ⟨fun hle => ?_, fun e hd hp => ?_, fun hd hp => ?_⟩
  · constructor
    · unfold harvest_dataset; rw [if_pos hle]
    · unfold plet_harvest_dataset; rw [if_pos hle]
  · constructor
    · unfold harvest_dataset; rw [if_neg (by omega), hp]
    · unfold plet_harvest_dataset; rw [if_neg (by omega), hp]
  · constructor
    · unfold harvest_dataset; rw [if_neg (by omega), hp]
    · unfold plet_harvest_dataset; rw [if_neg (by omega), hp]

def wParseFail : String → Except String Bool := fun _ => .error "ParseException"

theorem C4_invalid_query_witness :
    ((1 : Int) ≤ 5 ∧
      harvest_dataset wParse wNetFail 5 1 "anything" 3 60 =
        ⟨.error (.valueError "end_date must be after start_date"), 0, []⟩) ∧
    ((0 : Int) < 1 ∧ wParseFail "not wkt" = .error "ParseException" ∧
      harvest_dataset wParseFail wNetFail 0 1 "not wkt" 3 60 =
        ⟨.error (.valueError ("Invalid WKT format: " ++ "ParseException")), 0, []⟩) :=
  ⟨⟨by decide,
      ((C4_invalid_query wParse wNetFail 5 1 "anything" 3 60).1 (by decide)).1⟩,
    ⟨by decide, rfl,
      ((C4_invalid_query wParseFail wNetFail 0 1 "not wkt" 3 60).2.1 "ParseException"
        (by decide) rfl).1⟩⟩

/-! Sanitization helpers.

`_safe_name` (src/harvest_plet/harvest_for_assessment.py lines 21-38) is

  s = unicodedata.normalize("NFKD", s)
  s = s.encode("ascii", "ignore").decode()
  s = re.sub(r"[^\w\d]+", "_", s)
  return s.strip("_")

NFKD normalization is an external library call and is passed in as the
parameter `nfkd`; every theorem that instantiates it uses `id`, which is the
exact behaviour of NFKD on pure-ASCII inputs.  After the ascii encode/ignore
step the string is pure ASCII, where the regex class `\w` (which subsumes
`\d`) is exactly the characters A-Z, a-z, 0-9 and the underscore, so
`re.sub(r"[^\w\d]+", "_", s)` replaces every maximal run of characters that
are not in that set by a single underscore. -/

/-- Python regex `\w` restricted to ASCII: A-Z, a-z, 0-9 or underscore. -/
def isWordChar (c : Char) : Bool :=
  (65 ≤ c.toNat && c.toNat ≤ 90) || (97 ≤ c.toNat && c.toNat ≤ 122) ||
    (48 ≤ c.toNat && c.toNat ≤ 57) || c.toNat == 95

/-- The `encode("ascii", "ignore").decode()` step: drop non-ASCII characters. -/
def asciiIgnore (l : List Char) : List Char :=
  l.filter (fun c => c.toNat < 128)

/-- State machine for `re.sub(r"[^\w\d]+", "_", s)` on an ASCII string:
`inRun` records whether the previous character belonged to a run of
non-word characters (whose single replacement underscore was already
emitted). -/
def collapseGo (inRun : Bool) : List Char → List Char
  | [] => []
  | c :: cs =>
    if isWordChar c then c :: collapseGo false cs
    else if inRun then collapseGo true cs
    else '_' :: collapseGo true cs

/-- Replace every maximal run of non-word characters by one underscore. -/
def collapseNonWord (l : List Char) : List Char :=
  collapseGo false l

/-- Python `str.strip("_")`: drop leading and trailing underscores. -/
def stripUnderscores (l : List Char) : List Char :=
  ((l.dropWhile (fun c => c == '_')).reverse.dropWhile (fun c => c == '_')).reverse

/-- Embedding of `_safe_name` (src/harvest_plet/harvest_for_assessment.py).
`nfkd` models `unicodedata.normalize("NFKD", ·)`. -/
def _safe_name (nfkd : String → String) (s : String) : String :=
  ⟨stripUnderscores (collapseNonWord (asciiIgnore (nfkd s).data))⟩

/-- Embedding of `_sanitize_path_name`
(src/harvest_plet/harvest_dataset.py lines 144-165, identical to the static
method in src/harvest_plet/plet.py):

  name = name.replace(" ", "_")
  name = re.sub(r'[^\w\-]', '', name)
  return name.lower()

For non-ASCII characters Python's `\w` consults the Unicode word-character
table, modelled by the parameter `uw`; for ASCII characters it is
`isWordChar`.  `Char.toLower` agrees with Python `str.lower` on ASCII. -/
def _sanitize_path_name (uw : Char → Bool) (name : String) : String :=
  let s1 := name.data.map (fun c => if c = ' ' then '_' else c)
  let s2 := s1.filter (fun c => (if c.toNat < 128 then isWordChar c else uw c) || c = '-')
  ⟨s2.map Char.toLower⟩

example :
    _safe_name id "BE Flanders Marine Institute (VLIZ) - LW_VLIZ_zoo" =
      "BE_Flanders_Marine_Institute_VLIZ_LW_VLIZ_zoo" := by decide

example :
    _sanitize_path_name (fun _ => false) "BE Flanders Marine Institute (VLIZ) - LW_VLIZ_zoo" =
      "be_flanders_marine_institute_vliz_-_lw_vliz_zoo" := by decide

example : _safe_name id "a__b" = "a__b" := by decide

example : _safe_name id "a-_b" = "a__b" := by decide

example : _safe_name id "__hello--there__" = "hello_there" := by decide

/-! An executable MD5 (RFC 1321), used by `_limit_filename`
(src/harvest_plet/harvest_for_assessment.py lines 41-60), which appends
`hashlib.md5(name.encode("utf-8")).hexdigest()[:8]` to truncated names.
All 32-bit arithmetic is done on `Nat` with explicit reduction modulo
`2 ^ 32`. -/

/-- Combine 32 bits of two naturals with a boolean operation. -/
def bitop32 (f : Bool → Bool → Bool) : Nat → Nat → Nat → Nat
  | 0, _, _ => 0
  | n + 1, a, b =>
    (if f (a % 2 == 1) (b % 2 == 1) then 1 else 0) + 2 * bitop32 f n (a / 2) (b / 2)

def land32 (a b : Nat) : Nat := bitop32 (fun x y => x && y) 32 a b

def lor32 (a b : Nat) : Nat := bitop32 (fun x y => x || y) 32 a b

def lxor32 (a b : Nat) : Nat := bitop32 (fun x y => x != y) 32 a b

/-- Bitwise complement of a value below `2 ^ 32`. -/
def lnot32 (a : Nat) : Nat := 4294967295 - a % 4294967296

def add32 (a b : Nat) : Nat := (a + b) % 4294967296

/-- Rotate a 32-bit value left by `s` bits (`0 < s < 32` in the tables). -/
def rotl32 (x s : Nat) : Nat := (x * 2 ^ s) % 4294967296 + x / 2 ^ (32 - s)

/-- Little-endian byte expansion. -/
def leBytes (n x : Nat) : List Nat := (List.range n).map (fun i => x / 256 ^ i % 256)

/-- RFC 1321 padding: a 0x80 byte, zeros to 56 mod 64, then the bit length
as eight little-endian bytes. -/
def md5Pad (m : List Nat) : List Nat :=
  m ++ 128 :: (List.replicate ((120 - (m.length + 1) % 64) % 64) 0 ++ leBytes 8 (8 * m.length))

/-- Split into 64-byte blocks; the fuel argument (instantiated with the
length of the list, an upper bound on the number of blocks) makes the
recursion structural. -/
def md5ChunksGo : Nat → List Nat → List (List Nat)
  | _, [] => []
  | 0, _ :: _ => []
  | fuel + 1, c :: cs => (c :: cs).take 64 :: md5ChunksGo fuel ((c :: cs).drop 64)

def md5Chunks (l : List Nat) : List (List Nat) := md5ChunksGo l.length l

def md5K : List Nat := [
    3614090360, 3905402710, 606105819, 3250441966,
    4118548399, 1200080426, 2821735955, 4249261313,
    1770035416, 2336552879, 4294925233, 2304563134,
    1804603682, 4254626195, 2792965006, 1236535329,
    4129170786, 3225465664, 643717713, 3921069994,
    3593408605, 38016083, 3634488961, 3889429448,
    568446438, 3275163606, 4107603335, 1163531501,
    2850285829, 4243563512, 1735328473, 2368359562,
    4294588738, 2272392833, 1839030562, 4259657740,
    2763975236, 1272893353, 4139469664, 3200236656,
    681279174, 3936430074, 3572445317, 76029189,
    3654602809, 3873151461, 530742520, 3299628645,
    4096336452, 1126891415, 2878612391, 4237533241,
    1700485571, 2399980690, 4293915773, 2240044497,
    1873313359, 4264355552, 2734768916, 1309151649,
    4149444226, 3174756917, 718787259, 3951481745]

def md5S : List Nat := [
    7, 12, 17, 22, 7, 12, 17, 22, 7, 12, 17, 22, 7, 12, 17, 22,
    5, 9, 14, 20, 5, 9, 14, 20, 5, 9, 14, 20, 5, 9, 14, 20,
    4, 11, 16, 23, 4, 11, 16, 23, 4, 11, 16, 23, 4, 11, 16, 23,
    6, 10, 15, 21, 6, 10, 15, 21, 6, 10, 15, 21, 6, 10, 15, 21]

/-- The j-th little-endian 32-bit word of a 64-byte block. -/
def md5M (block : List Nat) (j : Nat) : Nat :=
  block.getD (4 * j) 0 + 256 * block.getD (4 * j + 1) 0 +
    65536 * block.getD (4 * j + 2) 0 + 16777216 * block.getD (4 * j + 3) 0

def md5F (i b c d : Nat) : Nat :=
  if i < 16 then lor32 (land32 b c) (land32 (lnot32 b) d)
  else if i < 32 then lor32 (land32 d b) (land32 (lnot32 d) c)
  else if i < 48 then lxor32 b (lxor32 c d)
  else lxor32 c (lor32 b (lnot32 d))

def md5G (i : Nat) : Nat :=
  if i < 16 then i
  else if i < 32 then (5 * i + 1) % 16
  else if i < 48 then (3 * i + 5) % 16
  else (7 * i) % 16

def md5Round (block : List Nat) (i : Nat) :
    Nat × Nat × Nat × Nat → Nat × Nat × Nat × Nat
  | (a, b, c, d) =>
    let f := add32 (add32 (add32 (md5F i b c d) a) (md5K.getD i 0)) (md5M block (md5G i))
    (d, add32 b (rotl32 f (md5S.getD i 0)), b, c)

def md5Rounds (block : List Nat) :
    Nat → Nat → Nat × Nat × Nat × Nat → Nat × Nat × Nat × Nat
  | 0, _, st => st
  | n + 1, i, st => md5Rounds block n (i + 1) (md5Round block i st)

def md5Block (st : Nat × Nat × Nat × Nat) (block : List Nat) : Nat × Nat × Nat × Nat :=
  match md5Rounds block 64 0 st with
  | (a, b, c, d) => (add32 st.1 a, add32 st.2.1 b, add32 st.2.2.1 c, add32 st.2.2.2 d)

def md5Digest (m : List Nat) : List Nat :=
  match (md5Chunks (md5Pad m)).foldl md5Block (1732584193, 4023233417, 2562383102, 271733878) with
  | (a, b, c, d) => leBytes 4 a ++ leBytes 4 b ++ leBytes 4 c ++ leBytes 4 d

def hexChar (n : Nat) : Char := "0123456789abcdef".data.getD n '0'

def byteHex (b : Nat) : List Char := [hexChar (b / 16), hexChar (b % 16)]

/-- Lowercase hex digest of a string, like `hashlib.md5(s.encode()).hexdigest()`.
For the ASCII strings handled in this repository the UTF-8 byte sequence is
the sequence of code points. -/
def md5hex (s : String) : String := ⟨(md5Digest (s.data.map Char.toNat)).flatMap byteHex⟩

example : md5hex "" = "d41d8cd98f00b204e9800998ecf8427e" := by decide

example : md5hex "abc" = "900150983cd24fb0d6963f7d28e17f72" := by decide

/-- Embedding of `_limit_filename`
(src/harvest_plet/harvest_for_assessment.py lines 41-60):

  if len(name) <= max_len: return name
  h = hashlib.md5(name.encode("utf-8")).hexdigest()[:8]
  return name[:max_len] + "_" + h
-/
def _limit_filename (name : String) (max_len : Nat) : String :=
  if name.length ≤ max_len then name
  else ⟨name.data.take max_len ++ '_' :: (md5hex name).data.take 8⟩

/-- The full sanitization pipeline of spec section 4.3: `_safe_name`
followed by `_limit_filename` with the default maximum length 100, as
`harvest_for_assessment` applies them when building a filename stem. -/
def sanitize_and_limit (nfkd : String → String) (s : String) : String :=
  _limit_filename (_safe_name nfkd s) 100

/-- A string of 101 copies of the letter a. -/
def aas101 : String := ⟨List.replicate 101 'a'⟩

example : _limit_filename "abc" 100 = "abc" := by decide

example :
    _limit_filename aas101 100 = ⟨List.replicate 100 'a' ++ "_681d7389".data⟩ := by decide

/-! Structural facts about the sanitizers. -/

theorem isWordChar_lt_128 (c : Char) (h : isWordChar c = true) : c.toNat < 128 := by
  simp only [isWordChar, Bool.or_eq_true, Bool.and_eq_true, decide_eq_true_eq,
    beq_iff_eq] at h
  omega

theorem collapseGo_of_word (l : List Char) (h : ∀ c ∈ l, isWordChar c = true) :
    ∀ b', collapseGo b' l = l := by
  induction l with
  | nil => intro b'; rfl
  | cons a as ih =>
    intro b'
    have ha := h a (by simp)
    simp [collapseGo, ha, ih (fun c hc => h c (by simp [hc])) false]

theorem collapseGo_all_word (l : List Char) :
    ∀ b', ∀ c ∈ collapseGo b' l, isWordChar c = true := by
  induction l with
  | nil => intro b' c hc; simp [collapseGo] at hc
  | cons a as ih =>
    intro b' c hc
    by_cases ha : isWordChar a = true
    · rw [collapseGo, if_pos ha] at hc
      rcases List.mem_cons.mp hc with h | h
      · subst h; exact ha
      · exact ih false c h
    · rw [collapseGo, if_neg ha] at hc
      cases b' with
      | true => exact ih true c (by simpa using hc)
      | false =>
        rcases List.mem_cons.mp (by simpa using hc) with h | h
        · subst h; decide
        · exact ih true c h

theorem mem_of_mem_dropWhile (p : Char → Bool) (l : List Char) (c : Char)
    (h : c ∈ l.dropWhile p) : c ∈ l := by
  induction l with
  | nil => simp at h
  | cons a as ih =>
    cases hp : p a
    · exact (by simpa [List.dropWhile_cons, hp] using h : c ∈ a :: as)
    · simp only [List.dropWhile_cons, hp, if_true] at h
      exact List.mem_cons_of_mem a (ih h)

theorem mem_of_mem_strip (l : List Char) (c : Char) (h : c ∈ stripUnderscores l) :
    c ∈ l := by
  unfold stripUnderscores at h
  rw [List.mem_reverse] at h
  have h1 := mem_of_mem_dropWhile _ _ _ h
  rw [List.mem_reverse] at h1
  exact mem_of_mem_dropWhile _ _ _ h1

theorem dropWhile_idem (p : Char → Bool) (l : List Char) :
    (l.dropWhile p).dropWhile p = l.dropWhile p := by
  induction l with
  | nil => rfl
  | cons a as ih =>
    cases hp : p a
    · simp [List.dropWhile_cons, hp]
    · simp [List.dropWhile_cons, hp, ih]

theorem dropWhile_head_not (p : Char → Bool) (l : List Char) (a : Char)
    (h : (l.dropWhile p).head? = some a) : p a = false := by
  induction l with
  | nil => simp [List.dropWhile] at h
  | cons b bs ih =>
    cases hp : p b
    · simp only [List.dropWhile_cons, hp, Bool.false_eq_true, if_false,
        List.head?_cons, Option.some.injEq] at h
      subst h; exact hp
    · simp only [List.dropWhile_cons, hp, if_true] at h
      exact ih h

theorem dropWhile_eq_self_of_head (p : Char → Bool) (l : List Char)
    (h : ∀ a, l.head? = some a → p a = false) : l.dropWhile p = l := by
  cases l with
  | nil => rfl
  | cons b bs => simp [List.dropWhile_cons, h b rfl]

theorem getLast?_dropWhile (p : Char → Bool) (l : List Char) :
    l.dropWhile p = [] ∨ (l.dropWhile p).getLast? = l.getLast? := by
  induction l with
  | nil => exact Or.inl rfl
  | cons a as ih =>
    cases hp : p a
    · exact Or.inr (by rw [List.dropWhile_cons, hp, if_neg (by simp)])
    · rw [List.dropWhile_cons, hp, if_pos rfl]
      rcases ih with h | h
      · exact Or.inl h
      · cases as with
        | nil => exact Or.inl rfl
        | cons b bs => exact Or.inr (by rw [h]; exact List.getLast?_cons_cons.symm)

theorem stripUnderscores_idem (l : List Char) :
    stripUnderscores (stripUnderscores l) = stripUnderscores l := by
  unfold stripUnderscores
  set p : Char → Bool := fun c => c == '_' with hp
  set u := l.dropWhile p with hu
  set v := (u.reverse).dropWhile p with hv
  have hdv : v.reverse.dropWhile p = v.reverse := by
    apply dropWhile_eq_self_of_head
    intro a ha
    rw [List.head?_reverse] at ha
    rcases getLast?_dropWhile p u.reverse with h | h
    · rw [← hv] at h; rw [h] at ha; simp at ha
    · rw [← hv] at h
      rw [h, List.getLast?_reverse] at ha
      exact dropWhile_head_not p l a (by rw [← hu]; exact ha)
  rw [hdv, List.reverse_reverse, hv, dropWhile_idem]

theorem safe_name_all_word (nfkd : String → String) (s : String) :
    ∀ c ∈ (_safe_name nfkd s).data, isWordChar c = true := by
  intro c hc
  have h1 : c ∈ collapseNonWord (asciiIgnore (nfkd s).data) :=
    mem_of_mem_strip _ c hc
  exact collapseGo_all_word _ false c h1

theorem safe_name_fixed (nfkd : String → String)
    (hn : ∀ s : String, (∀ c ∈ s.data, isWordChar c = true) → nfkd s = s)
    (x : String) :
    _safe_name nfkd (_safe_name nfkd x) = _safe_name nfkd x := by
  have hw := safe_name_all_word nfkd x
  show (⟨stripUnderscores (collapseNonWord (asciiIgnore
      (nfkd (_safe_name nfkd x)).data))⟩ : String) = _safe_name nfkd x
  rw [hn _ hw]
  have ha : asciiIgnore (_safe_name nfkd x).data = (_safe_name nfkd x).data :=
    List.filter_eq_self.mpr
      (fun c hc => by simpa using isWordChar_lt_128 c (hw c hc))
  rw [ha]
  have hc : collapseNonWord (_safe_name nfkd x).data = (_safe_name nfkd x).data :=
    collapseGo_of_word _ hw false
  rw [hc]
  show (⟨stripUnderscores (stripUnderscores (collapseNonWord
      (asciiIgnore (nfkd x).data)))⟩ : String) = _safe_name nfkd x
  rw [stripUnderscores_idem]
  rfl

/-- C6 counterexample: the claim says the sanitization function replaces
every maximal run of characters that are not alphanumeric with a single
underscore and that on the example input it yields a lowercase token.  On
the example input `_safe_name` (the function of spec section 4.3) yields a
string containing uppercase letters, hence not lowercase; and on "a__b" it
keeps the doubled underscore (the regex class is non-word characters, and
the underscore is a word character), whereas replacing the maximal run of
non-alphanumeric characters "__" by a single underscore would yield "a_b". -/
theorem C6_sanitize_counterexample :
    ((_safe_name id "BE Flanders Marine Institute (VLIZ) - LW_VLIZ_zoo").data.any
      Char.isUpper = true) ∧
    _safe_name id "BE Flanders Marine Institute (VLIZ) - LW_VLIZ_zoo" ≠
      ⟨(_safe_name id "BE Flanders Marine Institute (VLIZ) - LW_VLIZ_zoo").data.map
        Char.toLower⟩ ∧
    _safe_name id "a__b" = "a__b" ∧ ("a__b" : String) ≠ "a_b" := by decide

/-- C6 amended: `_safe_name` strips diacritics to closest ASCII (NFKD, here
the identity on this ASCII input), drops remaining non-ASCII characters,
replaces every maximal run of characters that are neither alphanumeric nor
underscore by a single underscore, and strips leading and trailing
underscores; on the example input it yields
"BE_Flanders_Marine_Institute_VLIZ_LW_VLIZ_zoo", an underscore-separated
ASCII token with no parentheses and no spaces that preserves the original
case (it is not lowercased).  Lowercasing is performed only by the separate
`_sanitize_path_name` helper used by `harvest_as_csv`, which instead
deletes special characters (keeping hyphens) after replacing spaces. -/
theorem C6_sanitize_amended :
    _safe_name id "BE Flanders Marine Institute (VLIZ) - LW_VLIZ_zoo" =
      "BE_Flanders_Marine_Institute_VLIZ_LW_VLIZ_zoo" ∧
    ((_safe_name id "BE Flanders Marine Institute (VLIZ) - LW_VLIZ_zoo").data.all
      (fun c => c != '(' && c != ')' && c != ' ')) = true ∧
    (∀ uw, _sanitize_path_name uw "BE Flanders Marine Institute (VLIZ) - LW_VLIZ_zoo" =
      "be_flanders_marine_institute_vliz_-_lw_vliz_zoo") :=
  ⟨by decide, by decide, fun uw => rfl⟩

/-- C7 counterexample: the full sanitization pipeline of spec section 4.3
(`_safe_name` followed by `_limit_filename` at the default maximum length
100, the two cited functions) is not idempotent: on a string of 101 letters
a, the first application truncates to 100 characters and appends
"_681d7389" (the md5 prefix of the input), and a second application
truncates again and appends "_74847312" (the md5 prefix of the first
output), a different string. -/
theorem C7_sanitize_idem_counterexample :
    sanitize_and_limit id aas101 = ⟨List.replicate 100 'a' ++ "_681d7389".data⟩ ∧
    sanitize_and_limit id (sanitize_and_limit id aas101) =
      ⟨List.replicate 100 'a' ++ "_74847312".data⟩ ∧
    sanitize_and_limit id (sanitize_and_limit id aas101) ≠ sanitize_and_limit id aas101 := by
  refine ⟨by decide, by decide, ?_⟩
  decide

/-- C7 amended: the sanitization is pure and deterministic by construction
(it is a function of its input only); `_safe_name` alone is idempotent for
every input (given that NFKD normalization fixes strings of ASCII word
characters, which is true of Unicode NFKD); and the composed
sanitize-and-limit pipeline is idempotent on exactly those inputs whose
sanitized stem does not exceed the maximum length of 100. -/
theorem C7_sanitize_idem_amended (nfkd : String → String)
    (hn : ∀ s : String, (∀ c ∈ s.data, isWordChar c = true) → nfkd s = s)
    (x : String) :
    _safe_name nfkd (_safe_name nfkd x) = _safe_name nfkd x ∧
    ((_safe_name nfkd x).length ≤ 100 →
      sanitize_and_limit nfkd (sanitize_and_limit nfkd x) = sanitize_and_limit nfkd x) := by
  refine ⟨safe_name_fixed nfkd hn x, fun hlen => ?_⟩
  have h1 : sanitize_and_limit nfkd x = _safe_name nfkd x := by
    unfold sanitize_and_limit _limit_filename
    rw [if_pos hlen]
  rw [h1]
  unfold sanitize_and_limit
  rw [safe_name_fixed nfkd hn x]
  unfold _limit_filename
  rw [if_pos hlen]

theorem C7_sanitize_idem_amended_witness :
    (∀ s : String, (∀ c ∈ s.data, isWordChar c = true) → id s = s) ∧
    (_safe_name id (_safe_name id "A (b)") = _safe_name id "A (b)" ∧
      ((_safe_name id "A (b)").length ≤ 100 →
        sanitize_and_limit id (sanitize_and_limit id "A (b)") =
          sanitize_and_limit id "A (b)")) :=
  ⟨fun _ _ => rfl, C7_sanitize_idem_amended id (fun _ _ => rfl) "A (b)"⟩

theorem md5Digest_length (m : List Nat) : (md5Digest m).length = 16 := by
  simp [md5Digest, leBytes]

theorem length_flatMap_byteHex (l : List Nat) : (l.flatMap byteHex).length = 2 * l.length := by
  induction l with
  | nil => rfl
  | cons a as ih =>
    simp only [List.flatMap_cons, List.length_append, ih, byteHex, List.length_cons,
      List.length_nil, List.length_cons]
    omega

theorem md5hex_length (s : String) : (md5hex s).length = 32 := by
  show ((md5Digest (s.data.map Char.toNat)).flatMap byteHex).length = 32
  rw [length_flatMap_byteHex, md5Digest_length]

/-- First collision witness: 100 letters x followed by "412". -/
def colX : String := ⟨List.replicate 100 'x' ++ "412".data⟩

/-- Second collision witness: 100 letters x followed by "111849". -/
def colY : String := ⟨List.replicate 100 'x' ++ "111849".data⟩

/-- C8 counterexample: the claim says two distinct long names sharing their
first 100 characters but differing later never collide after limiting.  The
appended hash is only the first 8 hex digits (32 bits) of the md5 digest, so
collisions exist: the two names below agree on their first 100 characters
(100 letters x), differ afterwards ("412" versus "111849"), and their md5
digests both start with "8b350627", so `_limit_filename` maps both to the
same output. -/
theorem C8_limit_counterexample :
    colX ≠ colY ∧ colX.data.take 100 = colY.data.take 100 ∧
    100 < colX.length ∧ 100 < colY.length ∧
    _limit_filename colX 100 = _limit_filename colY 100 := by
  refine ⟨by decide, by decide, by decide, by decide, ?_⟩
  decide

/-- C8 amended: a name of length at most 100 is returned unchanged; a longer
name is mapped to its first 100 characters followed by an underscore and the
first 8 hex digits of the md5 of the original untruncated name (a
deterministic function of it), so the result has length exactly
100 + 1 + 8 = 109; two distinct long names sharing their first 100
characters receive the same output exactly when the first 8 hex digits of
their md5 digests agree, which can happen (the hash is only 32 bits), so
collision-freedom is not guaranteed. -/
theorem C8_limit_amended (name : String) :
    (name.length ≤ 100 → _limit_filename name 100 = name) ∧
    (100 < name.length →
      _limit_filename name 100 =
        ⟨name.data.take 100 ++ '_' :: (md5hex name).data.take 8⟩ ∧
      (_limit_filename name 100).length = 109) := by
  constructor
  · intro h
    unfold _limit_filename
    rw [if_pos h]
  · intro h
    have hns : ¬ name.length ≤ 100 := by omega
    constructor
    · unfold _limit_filename
      rw [if_neg hns]
    · unfold _limit_filename
      rw [if_neg hns]
      show (name.data.take 100 ++ '_' :: (md5hex name).data.take 8).length = 109
      have h32 : (md5hex name).data.length = 32 := md5hex_length name
      have hd : 100 < name.data.length := h
      simp only [List.length_append, List.length_take, List.length_cons]
      omega

theorem C8_limit_amended_witness :
    ("abc" : String).length ≤ 100 ∧ _limit_filename "abc" 100 = "abc" ∧
    100 < aas101.length ∧
    (_limit_filename aas101 100 =
        ⟨aas101.data.take 100 ++ '_' :: (md5hex aas101).data.take 8⟩ ∧
      (_limit_filename aas101 100).length = 109) :=
  ⟨by decide, (C8_limit_amended "abc").1 (by decide), by decide,
    (C8_limit_amended aas101).2 (by decide)⟩

/-! Dataset catalog parsing.

The two implementations, `get_dataset_names` in
src/harvest_plet/list_datasets.py and `PLETHarvester.get_dataset_names` in
src/harvest_plet/plet.py, are modelled over the list of option elements
found inside the select element with id "abundance_dataset"; the HTML
fetching and DOM parsing are the external collaborator, abstracted as an
`Option (List HtmlOption)` (`none` when no such select element exists). -/

/-- An option element: its value attribute (if present) and its text. -/
structure HtmlOption where
  value : Option String
  text : String
deriving DecidableEq, Repr

/-- Python `str.strip()` whitespace test (ASCII whitespace). -/
def pyIsSpace (c : Char) : Bool :=
  c == ' ' || c == '\t' || c == '\n' || c == '\r' || c.toNat == 11 || c.toNat == 12

/-- Python `str.strip()`: drop whitespace from both ends. -/
def pyStrip (s : String) : String :=
  ⟨((s.data.dropWhile pyIsSpace).reverse.dropWhile pyIsSpace).reverse⟩

/-- Python `str.lower()` on ASCII text. -/
def pyLower (s : String) : String := ⟨s.data.map Char.toLower⟩

/-- Whether the second list starts with the first. -/
def leadsWith : List Char → List Char → Bool
  | [], _ => true
  | _ :: _, [] => false
  | a :: as, b :: bs => a == b && leadsWith as bs

/-- Python `needle in hay` for strings: substring containment. -/
def containsSeq (needle : List Char) : List Char → Bool
  | [] => leadsWith needle []
  | c :: cs => leadsWith needle (c :: cs) || containsSeq needle cs

/-- Embedding of `get_dataset_names`
(src/harvest_plet/list_datasets.py lines 6-28):

  if select_element:
      options = [option.text.strip() for option in select_element.find_all("option")
                 if option.get("value") != ""]
      return options
  else: print("Select element not found.")   # implicitly returns None

`none` models the implicit `None` return. -/
def get_dataset_names : Option (List HtmlOption) → Option (List String)
  | none => none
  | some opts =>
    some ((opts.filter (fun o => !(o.value == some ""))).map (fun o => pyStrip o.text))

/-- Embedding of `PLETHarvester.get_dataset_names`
(src/harvest_plet/plet.py lines 35-60):

  options = [option.text.strip() for option in select_element.find_all("option")
             if option.text.strip() and "select a dataset" not in option.text.lower()]

with `return []` when the select element is missing. -/
def plet_get_dataset_names : Option (List HtmlOption) → List String
  | none => []
  | some opts =>
    (opts.filter (fun o =>
        !(pyStrip o.text == "") &&
          !(containsSeq "select a dataset".data (pyLower o.text).data))).map
      (fun o => pyStrip o.text)

/-- The mock catalog page of src/tests/test_list_datasets.py: a placeholder
option with empty value and text "-- Select --", then two real options. -/
def mockPage : List HtmlOption :=
  [⟨some "", "-- Select --"⟩, ⟨some "1", "Dataset One"⟩, ⟨some "2", "Dataset Two"⟩]

/-- A catalog page whose placeholder is the "select a dataset" entry with an
empty value, as described by the spec, with surrounding whitespace on one
real option to exercise trimming. -/
def placeholderPage : List HtmlOption :=
  [⟨some "", "select a dataset"⟩, ⟨some "1", "  Dataset One  "⟩, ⟨some "2", "Dataset Two"⟩]

/-- C9: for a catalog page whose select element with id "abundance_dataset"
contains one placeholder option and two real options named "Dataset One" and
"Dataset Two", `get_dataset_names` returns exactly those two names: the
trimmed text of each option, excluding the empty-value placeholder
(list_datasets.py filters on the value attribute) and the "select a
dataset" placeholder (plet.py filters on the text); this holds for the unit
test's mock page and for the spec's placeholder page, for both
implementations on the pages whose placeholder each one filters. -/
theorem C9_get_dataset_names :
    get_dataset_names (some mockPage) = some ["Dataset One", "Dataset Two"] ∧
    get_dataset_names (some placeholderPage) = some ["Dataset One", "Dataset Two"] ∧
    plet_get_dataset_names (some placeholderPage) = ["Dataset One", "Dataset Two"] := by
  decide

/-! The per-task harvest-and-save operation and the batch orchestrator. -/

/-- Observable behaviour of one `harvest_as_csv` call: what the call raises
to its caller (`.ok ()` models returning `None` normally) and whether the
destination file was created. -/
structure CsvCall where
  result : Except PyError Unit
  wrote : Bool
deriving DecidableEq, Repr

/-- Embedding of `harvest_as_csv`
(src/harvest_plet/harvest_dataset.py lines 81-141):

  os.makedirs(out_dir, exist_ok=True)        # outside the try block
  clean_name = _sanitize_path_name(dataset_name)
  dest_path = os.path.join(out_dir, clean_name + ".csv")
  try:
      csv_data = harvest_dataset(...)
      _write_csv_from_string(csv_data, dest_path)
  except Exception as e:
      print(f"Failed to harvest dataset ...")

`mkdirs` models the outcome of `os.makedirs`; `write` models
`_write_csv_from_string` (open, csv re-serialization, write), which on the
`None` payload of a zero-retry fetch writes an empty file because
`io.StringIO(None)` is an empty buffer.  Every exception inside the `try`
is caught and only printed. -/
def harvest_as_csv (mkdirs : Except PyError Unit) (parse : String → Except String Bool)
    (net : Nat → Except String String) (write : String → Except PyError Unit)
    (sd ed : Int) (wkt : String) (r : Nat) (b : ℚ) : CsvCall :=
  match mkdirs with
  | .error e => ⟨.error e, false⟩
  | .ok _ =>
    match (harvest_dataset parse net sd ed wkt r b).result with
    | .ok (some text) =>
      match write text with
      | .ok _ => ⟨.ok (), true⟩
      | .error _ => ⟨.ok (), false⟩
    | .ok none =>
      match write "" with
      | .ok _ => ⟨.ok (), true⟩
      | .error _ => ⟨.ok (), false⟩
    | .error _ => ⟨.ok (), false⟩

theorem harvest_as_csv_result_ok (parse : String → Except String Bool)
    (net : Nat → Except String String) (write : String → Except PyError Unit)
    (sd ed : Int) (wkt : String) (r : Nat) (b : ℚ) :
    (harvest_as_csv (.ok ()) parse net write sd ed wkt r b).result = .ok () := by
  unfold harvest_as_csv
  cases h : (harvest_dataset parse net sd ed wkt r b).result with
  | ok o =>
    cases o with
    | some t => cases hw : write t <;> simp [hw]
    | none => cases hw : write "" <;> simp [hw]
  | error e => rfl

/-- The batch report of `harvest_all_datasets`. -/
structure BatchReport where
  succeeded : List String
  failed : List String
deriving DecidableEq, Repr

/-- Embedding of `harvest_all_datasets`
(src/harvest_plet/harvest_all.py lines 44-75; `PLETHarvester._harvest_all_datasets`
in src/harvest_plet/plet.py lines 189-245 has the same loop):

  for dataset in get_dataset_names():
      try:
          harvest_as_csv(...)
          succeeded.append(dataset)
      except Exception as e:
          failed.append(dataset)

`datasets` is the catalog result; `net d` and `write d` give the network
and filesystem behaviour for dataset `d`. -/
def harvest_all_datasets (datasets : List String) (mkdirs : Except PyError Unit)
    (parse : String → Except String Bool) (net : String → Nat → Except String String)
    (write : String → String → Except PyError Unit)
    (sd ed : Int) (wkt : String) (r : Nat) (b : ℚ) : BatchReport :=
  datasets.foldl (fun rep d =>
    match (harvest_as_csv mkdirs parse (net d) (write d) sd ed wkt r b).result with
    | .ok _ => ⟨rep.succeeded ++ [d], rep.failed⟩
    | .error _ => ⟨rep.succeeded, rep.failed ++ [d]⟩) ⟨[], []⟩

theorem harvest_all_datasets_all_succeed (datasets : List String)
    (parse : String → Except String Bool) (net : String → Nat → Except String String)
    (write : String → String → Except PyError Unit)
    (sd ed : Int) (wkt : String) (r : Nat) (b : ℚ) :
    harvest_all_datasets datasets (.ok ()) parse net write sd ed wkt r b =
      ⟨datasets, []⟩ := by
  unfold harvest_all_datasets
  suffices h : ∀ (ds : List String) (acc fl : List String),
      ds.foldl (fun (rep : BatchReport) (d : String) =>
        (⟨rep.succeeded ++ [d], rep.failed⟩ : BatchReport))
        (⟨acc, fl⟩ : BatchReport) = (⟨acc ++ ds, fl⟩ : BatchReport) by
    simp only [harvest_as_csv_result_ok]
    simpa using h datasets [] []
  intro ds
  induction ds with
  | nil => intro acc fl; simp
  | cons d rest ih =>
    intro acc fl
    rw [List.foldl_cons, ih (acc ++ [d]) fl]
    simp

/-- C10: for every input (dates, WKT, and every behaviour of the underlying
fetch and of the file write) the per-task harvest-and-save operation
`harvest_as_csv` never raises to its caller: the try block catches every
exception, prints it, and the function returns None, so the caller cannot
distinguish a failed harvest from a successful one by the call's outcome.
(The `os.makedirs` call, which sits before the try block and is outside the
code cited by the claim, is modelled as succeeding.) -/
theorem C10_harvest_as_csv_never_raises (parse : String → Except String Bool)
    (net : Nat → Except String String) (write : String → Except PyError Unit)
    (sd ed : Int) (wkt : String) (r : Nat) (b : ℚ) :
    (harvest_as_csv (.ok ()) parse net write sd ed wkt r b).result = .ok () :=
  harvest_as_csv_result_ok parse net write sd ed wkt r b

/-- C1: the failing input is a batch over datasets "D" and "E" whose every
network attempt raises a connection error.  The fetch for each dataset
raises RuntimeError after 3 attempts, yet the batch report lists both
datasets under succeeded and the failed list is empty, because
`harvest_as_csv` swallows the exception before the orchestrator's
try/except can see it; the claim (and the orchestrator's own docstring)
says such datasets are recorded in failed.  The final conjunct shows the
general divergence: with directory creation succeeding, every dataset is
always recorded as succeeded, whatever the fetch and write do. -/
theorem C1_fetch_failure_reported_as_success :
    (harvest_dataset wParse wNetFail 0 1 "P" 3 60).result =
      .error (.runtimeError "Request failed after 3 attempts: boom") ∧
    harvest_all_datasets ["D", "E"] (.ok ()) wParse (fun _ => wNetFail)
      (fun _ _ => .ok ()) 0 1 "P" 3 60 = ⟨["D", "E"], []⟩ ∧
    (∀ (datasets : List String) (parse : String → Except String Bool)
      (net : String → Nat → Except String String)
      (write : String → String → Except PyError Unit)
      (sd ed : Int) (wkt : String) (r : Nat) (b : ℚ),
      harvest_all_datasets datasets (.ok ()) parse net write sd ed wkt r b =
        ⟨datasets, []⟩) :=
  ⟨by decide, by decide, harvest_all_datasets_all_succeed⟩

/-! The assessment orchestrator `harvest_for_assessment`
(src/harvest_plet/harvest_for_assessment.py lines 63-163). -/

/-- Outcome logged for one (dataset, region) task: the [CACHED], [OK] and
[FAILED] log lines of the loop body. -/
inductive AssessOutcome where
  | cached
  | ok
  | failed
deriving DecidableEq, Repr

/-- State threaded through the nested loops: the file stems present in the
output directory, the number of network calls made to the PLET endpoint,
and the outcomes logged so far. -/
structure AssessState where
  files : List String
  calls : Nat
  outcomes : List AssessOutcome
deriving DecidableEq, Repr

/-- Modelled from the spec: `PLETHarvester.harvest_data` is invoked by
`harvest_for_assessment` (src/harvest_plet/harvest_for_assessment.py line
150) with `csv=True`, `out_dir` and `name=filename_stem`, but no method of
that name appears in src/harvest_plet/plet.py; only this caller is under
src/.  Following spec sections 4.1-4.2 and 6 it is modelled as: run the
retrying fetch (the embedded `PLETHarvester.harvest_dataset`) with the
default retries 3 and backoff 60, and on success persist the payload at the
deterministic output path (the caller's name stem), surfacing fetch and
persistence failures to the caller, where the orchestrator's per-task
handler catches them.  Returns the raised-or-returned outcome, whether the
file was written, and the number of network attempts performed. -/
def harvest_data (parse : String → Except String Bool)
    (net : Nat → Except String String) (write : String → Except PyError Unit)
    (sd ed : Int) (wkt : String) : Except PyError Unit × Bool × Nat :=
  let tr := plet_harvest_dataset parse net sd ed wkt 3 60
  match tr.result with
  | .error e => (.error e, false, tr.attempts)
  | .ok none => (.ok (), false, tr.attempts)
  | .ok (some text) =>
    match write text with
    | .error e => (.error e, false, tr.attempts)
    | .ok _ => (.ok (), true, tr.attempts)

/-- The deterministic filename stem of `harvest_for_assessment`
(src/harvest_plet/harvest_for_assessment.py lines 135-140):

  filename_stem = (f"Dataset_{dataset_safe}_Region_{region_safe}_"
                   f"START_{start_date:%Y-%m-%d}_STOP_{end_date:%Y-%m-%d}")
  filename_stem = _limit_filename(filename_stem, max_len=100)

`sdS` and `edS` are the two formatted dates. -/
def mkStem (nfkd : String → String) (ds rg sdS edS : String) : String :=
  _limit_filename ("Dataset_" ++ _safe_name nfkd ds ++ "_Region_" ++ _safe_name nfkd rg ++
    "_START_" ++ sdS ++ "_STOP_" ++ edS) 100

/-- One iteration of the nested loops of `harvest_for_assessment`
(src/harvest_plet/harvest_for_assessment.py lines 131-163):

  if not overwrite and filepath.exists(): log [CACHED]; continue
  region_wkt = comp_regions.get_wkt(id=region_id, simplify=True)
  plet_harvester.harvest_data(...)
  log [OK]
  except Exception as e: log [FAILED]

`get_wkt` models `OSPARRegions.get_wkt` (external collaborator); it can
raise (`.error`), return `None` for an unknown region id (`.ok none`, in
which case `harvest_data` receives `wkt=None`, whose WKT validation raises
and the task is logged [FAILED]), or return a WKT string.  `net d rg` and
`write d rg` give the network and persistence behaviour of the task. -/
def assess_step (nfkd : String → String) (overwrite : Bool)
    (get_wkt : String → Except PyError (Option String))
    (parse : String → Except String Bool)
    (net : String → String → Nat → Except String String)
    (write : String → String → String → Except PyError Unit)
    (sd ed : Int) (sdS edS : String)
    (st : AssessState) (t : String × String) : AssessState :=
  let stem := mkStem nfkd t.1 t.2 sdS edS
  if !overwrite && st.files.contains stem then
    { st with outcomes := st.outcomes ++ [.cached] }
  else
    match get_wkt t.2 with
    | .error _ => { st with outcomes := st.outcomes ++ [.failed] }
    | .ok none => { st with outcomes := st.outcomes ++ [.failed] }
    | .ok (some wkt) =>
      match harvest_data parse (net t.1 t.2) (write t.1 t.2) sd ed wkt with
      | (.error _, _, att) =>
        { st with calls := st.calls + att, outcomes := st.outcomes ++ [.failed] }
      | (.ok _, wrote, att) =>
        { files := if wrote then st.files ++ [stem] else st.files,
          calls := st.calls + att,
          outcomes := st.outcomes ++ [.ok] }

/-- The nested loops of `harvest_for_assessment`: datasets in catalog order
and, within each dataset, regions in order — a left fold over the
dataset-region pairs in that order. -/
def assess_run (nfkd : String → String) (overwrite : Bool)
    (get_wkt : String → Except PyError (Option String))
    (parse : String → Except String Bool)
    (net : String → String → Nat → Except String String)
    (write : String → String → String → Except PyError Unit)
    (sd ed : Int) (sdS edS : String)
    (datasets regions : List String) (st0 : AssessState) : AssessState :=
  (datasets.flatMap (fun d => regions.map (fun rg => (d, rg)))).foldl
    (assess_step nfkd overwrite get_wkt parse net write sd ed sdS edS) st0

theorem assess_step_cached (nfkd : String → String)
    (get_wkt : String → Except PyError (Option String))
    (parse : String → Except String Bool)
    (net : String → String → Nat → Except String String)
    (write : String → String → String → Except PyError Unit)
    (sd ed : Int) (sdS edS : String) (st : AssessState) (t : String × String)
    (h : st.files.contains (mkStem nfkd t.1 t.2 sdS edS) = true) :
    assess_step nfkd false get_wkt parse net write sd ed sdS edS st t =
      { st with outcomes := st.outcomes ++ [.cached] } := by
  unfold assess_step
  rw [if_pos (by simpa using h)]

theorem harvest_data_ok (parse : String → Except String Bool)
    (net' : Nat → Except String String) (write' : String → Except PyError Unit)
    (sd ed : Int) (wkt p : String)
    (hd : sd < ed) (hp : parse wkt = .ok true) (hn : net' 1 = .ok p)
    (hwr : write' p = .ok ()) :
    harvest_data parse net' write' sd ed wkt = (.ok (), true, 1) := by
  unfold harvest_data
  rw [plet_harvest_dataset_valid parse net' sd ed wkt 3 60 hd hp]
  have h3 : plet_go net' 3 60 1 3 = ⟨.ok (some p), 1, []⟩ := by
    simp [plet_go, hn]
  rw [h3]
  simp [hwr]

theorem assess_step_mem (nfkd : String → String)
    (get_wkt : String → Except PyError (Option String))
    (parse : String → Except String Bool)
    (net : String → String → Nat → Except String String)
    (write : String → String → String → Except PyError Unit)
    (sd ed : Int) (sdS edS : String) (wkts : String → String)
    (hw : ∀ rg, get_wkt rg = .ok (some (wkts rg)))
    (hp : ∀ rg, parse (wkts rg) = .ok true)
    (hd : sd < ed)
    (hn : ∀ d rg, ∃ p, net d rg 1 = .ok p)
    (hwr : ∀ d rg s, write d rg s = .ok ())
    (st : AssessState) (t : String × String) :
    mkStem nfkd t.1 t.2 sdS edS ∈
      (assess_step nfkd false get_wkt parse net write sd ed sdS edS st t).files ∧
    (∀ x ∈ st.files,
      x ∈ (assess_step nfkd false get_wkt parse net write sd ed sdS edS st t).files) := by
  by_cases hc : st.files.contains (mkStem nfkd t.1 t.2 sdS edS) = true
  · rw [assess_step_cached nfkd get_wkt parse net write sd ed sdS edS st t hc]
    exact ⟨by simpa using hc, fun x hx => hx⟩
  · obtain ⟨p, hp1⟩ := hn t.1 t.2
    have hstep : assess_step nfkd false get_wkt parse net write sd ed sdS edS st t =
        { files := st.files ++ [mkStem nfkd t.1 t.2 sdS edS],
          calls := st.calls + 1, outcomes := st.outcomes ++ [.ok] } := by
      unfold assess_step
      rw [if_neg (by simpa using hc)]
      simp only [hw t.2,
        harvest_data_ok parse (net t.1 t.2) (write t.1 t.2) sd ed (wkts t.2) p hd
          (hp t.2) hp1 (hwr t.1 t.2 p)]
      simp
    rw [hstep]
    exact ⟨by simp, fun x hx => by simp [hx]⟩

theorem assess_foldl_mem (nfkd : String → String)
    (get_wkt : String → Except PyError (Option String))
    (parse : String → Except String Bool)
    (net : String → String → Nat → Except String String)
    (write : String → String → String → Except PyError Unit)
    (sd ed : Int) (sdS edS : String) (wkts : String → String)
    (hw : ∀ rg, get_wkt rg = .ok (some (wkts rg)))
    (hp : ∀ rg, parse (wkts rg) = .ok true)
    (hd : sd < ed)
    (hn : ∀ d rg, ∃ p, net d rg 1 = .ok p)
    (hwr : ∀ d rg s, write d rg s = .ok ()) :
    ∀ (ts : List (String × String)) (st : AssessState),
      (∀ x ∈ st.files,
        x ∈ (ts.foldl (assess_step nfkd false get_wkt parse net write sd ed sdS edS) st).files) ∧
      (∀ t ∈ ts, mkStem nfkd t.1 t.2 sdS edS ∈
        (ts.foldl (assess_step nfkd false get_wkt parse net write sd ed sdS edS) st).files) := by
  intro ts
  induction ts with
  | nil => intro st; exact ⟨fun x hx => hx, fun t ht => by simp at ht⟩
  | cons t ts' ih =>
    intro st
    rw [List.foldl_cons]
    have hstep := assess_step_mem nfkd get_wkt parse net write sd ed sdS edS wkts
      hw hp hd hn hwr st t
    have hrest := ih (assess_step nfkd false get_wkt parse net write sd ed sdS edS st t)
    refine ⟨fun x hx => hrest.1 x (hstep.2 x hx), fun u hu => ?_⟩
    rcases List.mem_cons.mp hu with h | h
    · subst h; exact hrest.1 _ hstep.1
    · exact hrest.2 u h

theorem assess_foldl_all_cached (nfkd : String → String)
    (get_wkt : String → Except PyError (Option String))
    (parse : String → Except String Bool)
    (net : String → String → Nat → Except String String)
    (write : String → String → String → Except PyError Unit)
    (sd ed : Int) (sdS edS : String) :
    ∀ (ts : List (String × String)) (st : AssessState),
      (∀ t ∈ ts, st.files.contains (mkStem nfkd t.1 t.2 sdS edS) = true) →
      ts.foldl (assess_step nfkd false get_wkt parse net write sd ed sdS edS) st =
        ⟨st.files, st.calls, st.outcomes ++ ts.map (fun _ => AssessOutcome.cached)⟩ := by
  intro ts
  induction ts with
  | nil => intro st hts; simp
  | cons t ts' ih =>
    intro st hts
    rw [List.foldl_cons,
      assess_step_cached nfkd get_wkt parse net write sd ed sdS edS st t
        (hts t (by simp))]
    have hih := ih { st with outcomes := st.outcomes ++ [AssessOutcome.cached] }
      (fun u hu => hts u (by simp [hu]))
    rw [hih]
    simp

/-- C5: per-task cache skip, and idempotence of a successful batch.  The
first conjunct is unconditional: with `overwrite = false`, a task whose
deterministic output stem already exists in the output directory is logged
as cached and the state is otherwise unchanged (no network call, no write).
The second conjunct is the claim's consequence: after a first run of the
batch in an environment where every region lookup, fetch first attempt and
write succeed, a second run over the same task list performs zero network
calls and logs every task as cached.  `PLETHarvester.harvest_data` is
missing from src/ and is modelled from the spec (see `harvest_data`). -/
theorem C5_cache_skip (nfkd : String → String)
    (get_wkt : String → Except PyError (Option String))
    (parse : String → Except String Bool)
    (net : String → String → Nat → Except String String)
    (write : String → String → String → Except PyError Unit)
    (sd ed : Int) (sdS edS : String) (datasets regions : List String)
    (wkts : String → String) (files0 : List String)
    (hw : ∀ rg, get_wkt rg = .ok (some (wkts rg)))
    (hp : ∀ rg, parse (wkts rg) = .ok true)
    (hd : sd < ed)
    (hn : ∀ d rg, ∃ p, net d rg 1 = .ok p)
    (hwr : ∀ d rg s, write d rg s = .ok ()) :
    (∀ (st : AssessState) (t : String × String),
      st.files.contains (mkStem nfkd t.1 t.2 sdS edS) = true →
      assess_step nfkd false get_wkt parse net write sd ed sdS edS st t =
        { st with outcomes := st.outcomes ++ [.cached] }) ∧
    ((assess_run nfkd false get_wkt parse net write sd ed sdS edS datasets regions
        ⟨(assess_run nfkd false get_wkt parse net write sd ed sdS edS datasets regions
            ⟨files0, 0, []⟩).files, 0, []⟩).calls = 0 ∧
      (assess_run nfkd false get_wkt parse net write sd ed sdS edS datasets regions
        ⟨(assess_run nfkd false get_wkt parse net write sd ed sdS edS datasets regions
            ⟨files0, 0, []⟩).files, 0, []⟩).outcomes =
        (datasets.flatMap (fun d => regions.map (fun rg => (d, rg)))).map
          (fun _ => AssessOutcome.cached)) := by
  constructor
  · exact fun st t h => assess_step_cached nfkd get_wkt parse net write sd ed sdS edS st t h
  · unfold assess_run
    have hmem := assess_foldl_mem nfkd get_wkt parse net write sd ed sdS edS wkts
      hw hp hd hn hwr
      (datasets.flatMap (fun d => regions.map (fun rg => (d, rg)))) ⟨files0, 0, []⟩
    have hcached := assess_foldl_all_cached nfkd get_wkt parse net write sd ed sdS edS
      (datasets.flatMap (fun d => regions.map (fun rg => (d, rg))))
      ⟨((datasets.flatMap (fun d => regions.map (fun rg => (d, rg)))).foldl
          (assess_step nfkd false get_wkt parse net write sd ed sdS edS)
          ⟨files0, 0, []⟩).files, 0, []⟩
      (fun t ht => by simpa using hmem.2 t ht)
    rw [hcached]
    simp

def wGetWkt : String → Except PyError (Option String) := fun _ => .ok (some "W")

def wNetOk : String → String → Nat → Except String String := fun _ _ _ => .ok "payload"

def wWriteOk : String → String → String → Except PyError Unit := fun _ _ _ => .ok ()

theorem C5_cache_skip_witness :
    ((∀ rg, wGetWkt rg = .ok (some ((fun _ : String => "W") rg))) ∧
      (∀ rg, wParse ((fun _ : String => "W") rg) = .ok true) ∧ (0 : Int) < 1 ∧
      (∀ d rg, ∃ p, wNetOk d rg 1 = .ok p) ∧
      (∀ d rg s, wWriteOk d rg s = .ok ())) ∧
    (∀ (st : AssessState) (t : String × String),
      st.files.contains (mkStem id t.1 t.2 "2015-01-01" "2025-01-01") = true →
      assess_step id false wGetWkt wParse wNetOk wWriteOk 0 1 "2015-01-01" "2025-01-01" st t =
        { st with outcomes := st.outcomes ++ [.cached] }) ∧
    ((assess_run id false wGetWkt wParse wNetOk wWriteOk 0 1 "2015-01-01" "2025-01-01"
        ["D"] ["R"]
        ⟨(assess_run id false wGetWkt wParse wNetOk wWriteOk 0 1 "2015-01-01" "2025-01-01"
            ["D"] ["R"] ⟨[], 0, []⟩).files, 0, []⟩).calls = 0 ∧
      (assess_run id false wGetWkt wParse wNetOk wWriteOk 0 1 "2015-01-01" "2025-01-01"
        ["D"] ["R"]
        ⟨(assess_run id false wGetWkt wParse wNetOk wWriteOk 0 1 "2015-01-01" "2025-01-01"
            ["D"] ["R"] ⟨[], 0, []⟩).files, 0, []⟩).outcomes =
        ((["D"] : List String).flatMap (fun d => (["R"] : List String).map (fun rg => (d, rg)))).map
          (fun _ => AssessOutcome.cached)) :=
  ⟨⟨fun _ => rfl, fun _ => rfl, by decide, fun _ _ => ⟨"payload", rfl⟩, fun _ _ _ => rfl⟩,
    C5_cache_skip id wGetWkt wParse wNetOk wWriteOk 0 1 "2015-01-01" "2025-01-01"
      ["D"] ["R"] (fun _ : String => "W") [] (fun _ => rfl) (fun _ => rfl) (by decide)
      (fun _ _ => ⟨"payload", rfl⟩) (fun _ _ _ => rfl)⟩

end HarvestPlet
